import Mathlib

/-!
Verification of the biomedical-graphrag hybrid-service orchestration pipeline.

This file is a shallow embedding, in Lean 4, of the three-phase GraphRAG
orchestration implemented in
`src/biomedical_graphrag/application/services/hybrid_service/tool_calling.py`
(together with the gateway classes it drives,
`neo4j_query.py` / `qdrant_query.py`, and the Phase-1 tool catalog
`tools/qdrant_tools.py`).

Modelling conventions:
* Python `dict`s (tool-argument mappings, the `results` mapping, the
  per-tool call counters) are modelled as insertion-ordered association
  lists with Python assignment / `setdefault` semantics (`dictSet`,
  `dictSetdefault`).
* The tool-selection oracle (an external LLM) is a parameter: its response
  is a list of output items, each either a structured function call
  (name + already-parsed arguments) or some other output item.
* The gateway objects are parameters as well: a gateway is a partial map
  from attribute (method) name to an executable function, mirroring the
  `getattr(obj, name, None)` dynamic dispatch in the source.  A Neo4j
  gateway method either returns a value or raises; raising is modelled
  with `Except`.
* Floating-point relevance scores carried by retrieved items play no role
  in any of the orchestration logic and are omitted from the model.
-/

namespace BioGraphRAG

/-! Section: the Python-dict model. -/

/-- Insertion-ordered string-keyed mapping, the model of a Python `dict`. -/
abbrev Dict (α : Type) : Type := List (String × α)

/-- Lookup `d[k]` returning `none` when the key is absent (`dict.get`). -/
def dictGet? {α : Type} : Dict α → String → Option α
  | [], _ => none
  | (k', v) :: d, k => if k' = k then some v else dictGet? d k

/-- Membership test `k in d`. -/
def dictHasKey {α : Type} : Dict α → String → Bool
  | [], _ => false
  | (k', _) :: d, k => if k' = k then true else dictHasKey d k

/-- Python `d[k] = v`: replace the value in place when the key exists
(keys of a Python dict are unique), otherwise append the new entry. -/
def dictSet {α : Type} : Dict α → String → α → Dict α
  | [], k, v => [(k, v)]
  | (k', v') :: d, k, v => if k' = k then (k, v) :: d else (k', v') :: dictSet d k v

/-- Python `d.setdefault(k, v)`: insert only when the key is absent. -/
def dictSetdefault {α : Type} (d : Dict α) (k : String) (v : α) : Dict α :=
  if dictHasKey d k then d else d ++ [(k, v)]

/-! Section: tool-argument and result values. -/

/-- JSON-ish values appearing in oracle-proposed tool arguments. -/
inductive AVal : Type where
  | str (s : String)
  | nat (n : Nat)
  | boolean (b : Bool)
  | strs (l : List String)
  | null
deriving DecidableEq, Repr

/-- A parsed tool-argument mapping (the result of `json.loads` on the
oracle's `arguments` payload). -/
abbrev Args : Type := Dict AVal

/-- A value returned by a Neo4j gateway method: the fixed Cypher templates
all return lists of records (records abstracted as strings here), but the
dynamically dispatched callee is typed `Any`, so a non-list result is
representable too — the orchestrator checks `isinstance(result, list)`. -/
inductive RVal : Type where
  | list (items : List String)
  | str (s : String)
deriving DecidableEq, Repr

/-- Whether an `RVal` is a bare string (used to state that a mapping entry
is, or is not, shaped like the `"Error: ..."` marker). -/
def RVal.isStr : RVal → Bool
  | RVal.list _ => false
  | RVal.str _ => true

/-! Section: retrieved items and the entity extractor. -/

/-- One element of `paper["authors"]` / `paper["mesh_terms"]` /
`payload["genes"]`: either a small record (a dict carrying the name under
its relevant key — `"name"` or `"term"`) or a bare value, which the
extractor passes through `str(...)`. -/
inductive PEntry : Type where
  | pdict (name : Option String)
  | praw (s : String)
deriving DecidableEq, Repr

/-- The name the extractor reads off one entry:
`name = a.get("name") if isinstance(a, dict) else str(a)`, kept only when
truthy (`if name:`) — a missing key or an empty string is skipped. -/
def PEntry.extracted : PEntry → Option String
  | PEntry.pdict none => none
  | PEntry.pdict (some s) => if s = "" then none else some s
  | PEntry.praw s => if s = "" then none else some s

/-- Field `payload["paper"]`: the denormalized paper record. A payload with no
`"paper"` key behaves as the all-empty record (the source reads it with
`.get("paper", {})`). -/
structure PaperRec : Type where
  pmid : Option String
  authors : List PEntry
  mesh_terms : List PEntry
deriving DecidableEq, Repr

/-- The payload of one vector-search hit: the paper record plus the
cross-referenced `"genes"` section attached at retrieval time. -/
structure Payload : Type where
  paper : PaperRec
  genes : List PEntry
deriving DecidableEq, Repr

/-- One Qdrant hit as built by `AsyncQdrantQuery` (`{"id", "score",
"payload"}`); the float `score` is irrelevant to the orchestration and
omitted. -/
structure RetrievedItem : Type where
  id : String
  payload : Payload
deriving DecidableEq, Repr

/-- Order-preserving deduplication, the model of
`list(dict.fromkeys(xs))`: keeps the first occurrence of each element. -/
def dedupFirstAux : List String → List String → List String
  | _, [] => []
  | seen, x :: xs =>
      if x ∈ seen then dedupFirstAux seen xs
      else x :: dedupFirstAux (x :: seen) xs

/-- Alias for `list(dict.fromkeys(xs))` on the full list. -/
def dedupFirst (l : List String) : List String := dedupFirstAux [] l

/-- The four entity lists of `_extract_qdrant_context` (the spec's
`EntityBundle`). -/
structure QdrantContext : Type where
  pmids : List String
  authors : List String
  mesh_terms : List String
  genes : List String
deriving DecidableEq, Repr

/-- The pmid collected from one item, when present and truthy
(`if paper.get("pmid"):`). -/
def pmidOf (r : RetrievedItem) : Option String :=
  match r.payload.paper.pmid with
  | none => none
  | some s => if s = "" then none else some s

/-- The names collected from one list-valued payload section. -/
def collectEntries (l : List PEntry) : List String :=
  l.filterMap PEntry.extracted

/-- Model of `_extract_qdrant_context`: walk the Qdrant results in order, collect
pmid / author names / MeSH terms / gene names, then deduplicate each list
keeping first-occurrence order. -/
def extractQdrantContext (qdrant_results : List RetrievedItem) : QdrantContext :=
  { pmids := dedupFirst (qdrant_results.filterMap pmidOf)
    authors := dedupFirst (qdrant_results.flatMap (fun r => collectEntries r.payload.paper.authors))
    mesh_terms := dedupFirst (qdrant_results.flatMap (fun r => collectEntries r.payload.paper.mesh_terms))
    genes := dedupFirst (qdrant_results.flatMap (fun r => collectEntries r.payload.genes)) }

/-! Section: oracle responses and trace records. -/

/-- One item of the oracle's `response.output`: either a structured
function call (with arguments already parsed from JSON) or any other
output item (`tool_call.type != "function_call"`), which the loops skip. -/
inductive OracleItem : Type where
  | function_call (name : String) (arguments : Args)
  | other
deriving DecidableEq, Repr

/-- The payload stored in `ToolExecution.results`: the Qdrant item list in
Phase 1, a Neo4j gateway value in Phase 2. -/
inductive ExecResults : Type where
  | qdrantItems (items : List RetrievedItem)
  | neoValue (r : RVal)
deriving DecidableEq, Repr

/-- Record `ToolExecution` of one attempted tool invocation (dataclass in
the source; every field but `name` defaults to `None`). -/
structure ToolExecution : Type where
  name : String
  arguments : Option Args := none
  result_count : Option Nat := none
  results : Option ExecResults := none
deriving DecidableEq, Repr

/-! Section: Phase 1, Qdrant tool selection and execution (`run_qdrant_vector_search`). -/

/-- Dataclass `QdrantSearchResult`. -/
structure QdrantSearchResult : Type where
  results : List RetrievedItem
  tool : ToolExecution
deriving DecidableEq, Repr

/-- Model of `getattr(qdrant, tool_name, None)` over the query methods of
`AsyncQdrantQuery`; the three stubs stand for the class's three search
coroutines.  (The only other public attribute, `close`, takes no query
arguments and is not a retrieval operation.) -/
def asyncQdrantQueryAttr
    (retrieve_papers_dense retrieve_papers_hybrid
     recommend_papers_based_on_examples : Args → List RetrievedItem) :
    String → Option (Args → List RetrievedItem)
  | "retrieve_papers_dense" => some retrieve_papers_dense
  | "retrieve_papers_hybrid" => some retrieve_papers_hybrid
  | "recommend_papers_based_on_examples" => some recommend_papers_based_on_examples
  | _ => none

/-- The names of the two tools advertised to the oracle in the Phase-1
catalog `QDRANT_TOOLS` (`tools/qdrant_tools.py`). -/
def QDRANT_TOOLS_names : List String :=
  ["recommend_papers_based_on_constraints", "retrieve_papers_hybrid"]

/-- Mutable state of the Phase-1 response loop: `tool_name` starts as
`"unknown"`, `tool_args` as `{}`, `results` as `[]`. -/
structure P1State : Type where
  tool_name : String
  tool_args : Args
  results : List RetrievedItem
deriving DecidableEq, Repr

/-- One iteration of the Phase-1 loop over `response.output`: on a
function call, force `args["top_k"] = limit`, record name and a copy of
the arguments, then execute `getattr(qdrant, tool_name, None)` when it
resolves. -/
def qdrantStep (qgw : String → Option (Args → List RetrievedItem)) (limit : Nat)
    (st : P1State) (item : OracleItem) : P1State :=
  match item with
  | OracleItem.other => st
  | OracleItem.function_call name args0 =>
      let args := dictSet args0 "top_k" (AVal.nat limit)
      let st1 : P1State := { st with tool_name := name, tool_args := args }
      match qgw name with
      | none => st1
      | some func => { st1 with results := func args }

/-- Model of `run_qdrant_vector_search` (Phase 1): the oracle is invoked with
`tool_choice="required"`; its response is the `oracle_output` parameter.
The `question` only shapes the prompt sent to the oracle and does not
otherwise influence the control flow. -/
def run_qdrant_vector_search (qgw : String → Option (Args → List RetrievedItem))
    (question : String) (limit : Nat) (oracle_output : List OracleItem) :
    QdrantSearchResult :=
  let st := oracle_output.foldl (qdrantStep qgw limit)
    { tool_name := "unknown", tool_args := [], results := [] }
  { results := st.results
    tool := { name := st.tool_name, arguments := some st.tool_args
              result_count := some st.results.length
              results := some (ExecResults.qdrantItems st.results) } }

/-! Section: Phase 2, Neo4j enrichment (`run_graph_enrichment`). -/

/-- Dataclass `Neo4jEnrichmentResult`: the tool-name → raw-result mapping
plus the ordered list of executed `ToolExecution`s. -/
structure Neo4jEnrichmentResult : Type where
  results : Dict RVal
  tools : List ToolExecution
deriving DecidableEq, Repr

/-- Model of `getattr(neo4j, name, None)` over the parameterized enrichment methods
of `Neo4jGraphQuery` (plus the raw-Cypher escape hatch `query`); each stub
stands for the behaviour of the corresponding Cypher template against the
live graph, and `Except.error` models the method raising. -/
def neo4jGraphQueryAttr
    (get_collaborators_with_topics get_related_papers_by_mesh
     get_genes_in_same_papers query : Args → Except String RVal) :
    String → Option (Args → Except String RVal)
  | "get_collaborators_with_topics" => some get_collaborators_with_topics
  | "get_related_papers_by_mesh" => some get_related_papers_by_mesh
  | "get_genes_in_same_papers" => some get_genes_in_same_papers
  | "query" => some query
  | _ => none

/-- Constant `max_calls_per_tool = 3`. -/
def max_calls_per_tool : Nat := 3

/-- Expression `count = len(result) if isinstance(result, list) else None`. -/
def lenIfList : RVal → Option Nat
  | RVal.list l => some l.length
  | RVal.str _ => none

/-- Injection `args.setdefault("exclude_pmids", ctx["pmids"])`, applied only for the
two tools that support the exclusion argument. -/
def injectExcludePmids (pmids : List String) (name : String) (args : Args) : Args :=
  if name = "get_collaborators_with_topics" ∨ name = "get_related_papers_by_mesh" then
    dictSetdefault args "exclude_pmids" (AVal.strs pmids)
  else args

/-- Mutable state of the Phase-2 response loop. -/
structure EnrichState : Type where
  results : Dict RVal
  tool_call_counts : Dict Nat
  tools_executed : List ToolExecution
deriving DecidableEq, Repr

/-- The running call count for one tool name
(`tool_call_counts.get(name, 0)`). -/
def getCount (c : Dict Nat) (n : String) : Nat := (dictGet? c n).getD 0

/-- One iteration of the Phase-2 loop over `response.output`:
increment the per-name counter; skip (counter only) past the cap; inject
the exclusion list; dispatch via `getattr`; on success record the result
and its natural count, on an exception record the stringified error as the
mapping value, `result = None` and `count = 0`; in both cases append one
`ToolExecution`. -/
def enrichStep (gw : String → Option (Args → Except String RVal)) (pmids : List String)
    (st : EnrichState) (item : OracleItem) : EnrichState :=
  match item with
  | OracleItem.other => st
  | OracleItem.function_call name args0 =>
      let cnt := getCount st.tool_call_counts name + 1
      let counts := dictSet st.tool_call_counts name cnt
      if max_calls_per_tool < cnt then
        { st with tool_call_counts := counts }
      else
        let args := injectExcludePmids pmids name args0
        match gw name with
        | none => { st with tool_call_counts := counts }
        | some func =>
          match func args with
          | Except.ok result =>
              { results := dictSet st.results name result
                tool_call_counts := counts
                tools_executed := st.tools_executed ++
                  [{ name := name, arguments := some args
                     result_count := lenIfList result
                     results := some (ExecResults.neoValue result) }] }
          | Except.error e =>
              { results := dictSet st.results name (RVal.str ("Error: " ++ e))
                tool_call_counts := counts
                tools_executed := st.tools_executed ++
                  [{ name := name, arguments := some args
                     result_count := some 0, results := none }] }

/-- Initial loop state: `results = {}`, `tool_call_counts = {}`, empty
execution list. -/
def enrichInit : EnrichState :=
  { results := [], tool_call_counts := [], tools_executed := [] }

/-- Model of `run_graph_enrichment` (Phase 2), from the oracle response onward: the
schema fetch, author scoring and prompt construction shape only the prompt
sent to the oracle (whose response is the `oracle_output` parameter); the
execution loop folds `enrichStep` over the response with the deduplicated
Phase-1 pmids available for exclusion-list injection. -/
def run_graph_enrichment (gw : String → Option (Args → Except String RVal))
    (question : String) (qdrant_results : List RetrievedItem)
    (oracle_output : List OracleItem) : Neo4jEnrichmentResult :=
  let ctx := extractQdrantContext qdrant_results
  let final := oracle_output.foldl (enrichStep gw ctx.pmids) enrichInit
  { results := final.results, tools := final.tools_executed }

/-! Section: connection lifecycle of Phase 2.

`run_graph_enrichment` constructs two `Neo4jGraphQuery` driver objects:
one inside `get_neo4j_schema()` (connection 0) and one bound to the local
`neo4j` (connection 1).  `get_neo4j_schema` returns without calling
`close()` on its driver.  Author scoring (`_score_authors`, a
`neo4j.query(...)` round trip that can raise) runs *before* the
`try/finally` block; the `finally: neo4j.close()` covers only the prompt
construction, the oracle call and the execution loop. -/

/-- Open/close events on the Neo4j driver objects of one Phase-2 run. -/
inductive ConnEvent : Type where
  | openConn (id : Nat)
  | closeConn (id : Nat)
deriving DecidableEq, Repr

/-- Connection events of `get_neo4j_schema()`: a driver is constructed and never
closed. -/
def get_neo4j_schema_events : List ConnEvent := [ConnEvent.openConn 0]

/-- Connection events of one `run_graph_enrichment` invocation.
`score_raises` — the `_score_authors` query raises (before the
`try`); `oracle_raises` — the oracle invocation inside the `try` raises.
The `finally` clause closes connection 1 on both the success and the
oracle-failure path, which is why the trace does not depend on
`oracle_raises`; a failure in author scoring propagates before the `try`
is entered, so no close is reached on that path. -/
def run_graph_enrichment_conn_events (score_raises oracle_raises : Bool) :
    List ConnEvent :=
  get_neo4j_schema_events ++ [ConnEvent.openConn 1] ++
    (if score_raises then [] else [ConnEvent.closeConn 1])

/-! Section: Phase 3 and the pipeline coordinator (`run_tools_sequence_and_summarize`). -/

/-- Dataclass `GraphRAGResult`. -/
structure GraphRAGResult : Type where
  summary : String
  qdrant_results : List RetrievedItem
  neo4j_results : Dict RVal
  trace : List ToolExecution
deriving DecidableEq, Repr

/-- Model of `run_tools_sequence_and_summarize`: Phase 1, then Phase 2 on the
Phase-1 items, then the generative summarization call (whose free-text
output is the `summary` parameter — `summarize_fused_results` performs a
single non-tool oracle call); the trace collects the Phase-1 record, every
Phase-2 record and a terminal `ToolExecution(name="summarize")` marker. -/
def run_tools_sequence_and_summarize
    (qgw : String → Option (Args → List RetrievedItem))
    (gw : String → Option (Args → Except String RVal))
    (oracle1 oracle2 : List OracleItem) (summary : String)
    (question : String) (limit : Nat) : GraphRAGResult :=
  let qdrant_result := run_qdrant_vector_search qgw question limit oracle1
  let neo4j_result := run_graph_enrichment gw question qdrant_result.results oracle2
  { summary := summary
    qdrant_results := qdrant_result.results
    neo4j_results := neo4j_result.results
    trace := [qdrant_result.tool] ++ neo4j_result.tools ++ [{ name := "summarize" }] }

/-! Section: derived definitions used to state loop properties. -/


/-- Whether an oracle output item is a function call with the given name. -/
def isCallNamed (n : String) : OracleItem → Bool
  | OracleItem.function_call m _ => m == n
  | OracleItem.other => false

/-- Number of function calls with the given name in an oracle response. -/
def countFC (ys : List OracleItem) (n : String) : Nat :=
  (ys.filter (isCallNamed n)).length

/-- The ordered list of `ToolExecution`s that the Phase-2 loop appends
when run over `ys` starting from per-tool counters `c`.  This is the
trace-projection of `enrichStep`: it reads only the counters, never the
results mapping, which is what makes a per-call failure invisible to the
processing of the remaining calls. -/
def toolsDelta (gw : String → Option (Args → Except String RVal)) (pmids : List String)
    (c : Dict Nat) : List OracleItem → List ToolExecution
  | [] => []
  | OracleItem.other :: ys => toolsDelta gw pmids c ys
  | OracleItem.function_call name args0 :: ys =>
      let cnt := getCount c name + 1
      let counts := dictSet c name cnt
      if max_calls_per_tool < cnt then toolsDelta gw pmids counts ys
      else
        let args := injectExcludePmids pmids name args0
        match gw name with
        | none => toolsDelta gw pmids counts ys
        | some func =>
          match func args with
          | Except.ok result =>
              { name := name, arguments := some args
                result_count := lenIfList result
                results := some (ExecResults.neoValue result) } ::
                toolsDelta gw pmids counts ys
          | Except.error e =>
              { name := name, arguments := some args
                result_count := some 0, results := (none : Option ExecResults) } ::
                toolsDelta gw pmids counts ys

/-- Decidable equality for modelled gateway outcomes, so that closed
statements about concrete stub runs can be checked by evaluation. -/
instance {ε α : Type} [DecidableEq ε] [DecidableEq α] : DecidableEq (Except ε α) :=
  fun a b =>
    match a, b with
    | Except.ok x, Except.ok y =>
        if h : x = y then isTrue (congrArg Except.ok h)
        else isFalse (fun hh => h (Except.ok.inj hh))
    | Except.error x, Except.error y =>
        if h : x = y then isTrue (congrArg Except.error h)
        else isFalse (fun hh => h (Except.error.inj hh))
    | Except.ok _, Except.error _ => isFalse (fun hh => Except.noConfusion hh)
    | Except.error _, Except.ok _ => isFalse (fun hh => Except.noConfusion hh)

/-- The value the loop stores in the results mapping for one executed
call: the gateway's value on success, `"Error: ..."` on an exception. -/
def valueOf : Except String RVal → RVal
  | Except.ok r => r
  | Except.error e => RVal.str ("Error: " ++ e)

/-- The `ToolExecution` the loop appends for one executed call with final
arguments `args`. -/
def execRecordOf (n : String) (args : Args) : Except String RVal → ToolExecution
  | Except.ok r =>
      { name := n, arguments := some args
        result_count := lenIfList r
        results := some (ExecResults.neoValue r) }
  | Except.error _ =>
      { name := n, arguments := some args
        result_count := some 0, results := none }

/-! Section: concrete sample data and gateway stubs used by the closed
witness and counterexample theorems. -/

/-- A sample retrieved item with pmid `pid`, two authors (one wrapped in a
record, one bare), one MeSH term and one gene mention. -/
def sampleItem (pid : String) : RetrievedItem :=
  { id := pid
    payload :=
      { paper :=
          { pmid := some pid
            authors := [PEntry.pdict (some "Alice Smith"), PEntry.praw "Bob Lee"]
            mesh_terms := [PEntry.pdict (some "CRISPR")] }
        genes := [PEntry.praw "BRCA1"] } }

/-- An item with missing and malformed payload fields: no pmid, an author
record without a name, empty-string entries. -/
def malformedItem : RetrievedItem :=
  { id := "x"
    payload :=
      { paper :=
          { pmid := none
            authors := [PEntry.pdict none, PEntry.praw ""]
            mesh_terms := [PEntry.praw ""] }
        genes := [PEntry.pdict none] } }

/-- How the sample Qdrant stubs read the forced `top_k` argument. -/
def argTopK (a : Args) : Nat :=
  match dictGet? a "top_k" with
  | some (AVal.nat k) => k
  | _ => 0

/-- Stub for `AsyncQdrantQuery.retrieve_papers_hybrid`: three available
matches, truncated to `top_k`. -/
def hybridStub (a : Args) : List RetrievedItem :=
  [sampleItem "11", sampleItem "22", sampleItem "33"].take (argTopK a)

/-- Stub for `AsyncQdrantQuery.retrieve_papers_dense`: one available
match. -/
def denseStub (a : Args) : List RetrievedItem :=
  [sampleItem "11"].take (argTopK a)

/-- Stub for `AsyncQdrantQuery.recommend_papers_based_on_examples`: two
available matches, truncated to `top_k`. -/
def recommendStub (a : Args) : List RetrievedItem :=
  [sampleItem "44", sampleItem "55"].take (argTopK a)

/-- A sample Qdrant gateway built from the three stubs. -/
def sampleQgw : String → Option (Args → List RetrievedItem) :=
  asyncQdrantQueryAttr denseStub hybridStub recommendStub

/-- Stub for `Neo4jGraphQuery.get_collaborators_with_topics`. -/
def collabStub : Args → Except String RVal :=
  fun _ => Except.ok (RVal.list ["Carol Jones (3 papers)"])

/-- Stub for `Neo4jGraphQuery.get_related_papers_by_mesh`. -/
def relatedStub : Args → Except String RVal :=
  fun _ => Except.ok (RVal.list ["991", "992"])

/-- Stub for `Neo4jGraphQuery.get_genes_in_same_papers`: raises exactly
when the arguments carry the key `"boom"`. -/
def geneStub : Args → Except String RVal :=
  fun a =>
    if dictHasKey a "boom" then Except.error "boom"
    else Except.ok (RVal.list ["TP53"])

/-- Stub for the raw-Cypher escape hatch `Neo4jGraphQuery.query`. -/
def rawQueryStub : Args → Except String RVal :=
  fun _ => Except.ok (RVal.list [])

/-- A sample Neo4j gateway built from the four stubs. -/
def sampleGw : String → Option (Args → Except String RVal) :=
  neo4jGraphQueryAttr collabStub relatedStub geneStub rawQueryStub

/-- A Phase-1 oracle response selecting the hybrid search. -/
def p1OracleSample : List OracleItem :=
  [OracleItem.function_call "retrieve_papers_hybrid" [("query", AVal.str "crispr")]]

/-- A Phase-2 oracle response proposing one related-papers call. -/
def p2OracleSample : List OracleItem :=
  [OracleItem.function_call "get_related_papers_by_mesh" [("pmid", AVal.str "11")]]

/-- An oracle response proposing five calls to the same tool. -/
def fiveCallOracle : List OracleItem :=
  List.replicate 5
    (OracleItem.function_call "get_genes_in_same_papers" [("target_gene", AVal.str "gag")])

/-- A loop state whose counter for `get_genes_in_same_papers` has already
reached the cap. -/
def cappedState : EnrichState :=
  { results := [("get_genes_in_same_papers", RVal.list ["TP53"])]
    tool_call_counts := [("get_genes_in_same_papers", 3)]
    tools_executed := [] }

/-! Section: basic lemmas about the dict model. -/

theorem dictGet?_set_self {α : Type} (d : Dict α) (k : String) (v : α) :
    dictGet? (dictSet d k v) k = some v := by
  induction d with
  | nil => simp [dictSet, dictGet?]
  | cons p d ih =>
      obtain ⟨k', v'⟩ := p
      by_cases h : k' = k
      · simp [dictSet, dictGet?, h]
      · simp [dictSet, dictGet?, h, ih]

theorem dictGet?_set_ne {α : Type} (d : Dict α) (k k' : String) (v : α)
    (h : k' ≠ k) : dictGet? (dictSet d k v) k' = dictGet? d k' := by
  have hne : k ≠ k' := Ne.symm h
  induction d with
  | nil => simp [dictSet, dictGet?, hne]
  | cons p d ih =>
      obtain ⟨k₀, v₀⟩ := p
      by_cases h₀ : k₀ = k
      · subst h₀
        simp [dictSet, dictGet?, hne]
      · simp [dictSet, dictGet?, h₀, ih]

theorem getCount_set_self (c : Dict Nat) (n : String) (v : Nat) :
    getCount (dictSet c n v) n = v := by
  simp [getCount, dictGet?_set_self]

theorem getCount_set_ne (c : Dict Nat) (n m : String) (v : Nat) (h : m ≠ n) :
    getCount (dictSet c n v) m = getCount c m := by
  simp [getCount, dictGet?_set_ne c n m v h]

theorem dictHasKey_iff_mem_keys {α : Type} (d : Dict α) (k : String) :
    dictHasKey d k = true ↔ k ∈ d.map Prod.fst := by
  induction d with
  | nil => simp [dictHasKey]
  | cons p d ih =>
      obtain ⟨k', v'⟩ := p
      by_cases h : k' = k
      · simp [dictHasKey, h]
      · simp [dictHasKey, h, ih, Ne.symm h]

theorem keys_dictSet {α : Type} (d : Dict α) (k : String) (v : α) :
    (dictSet d k v).map Prod.fst =
      if dictHasKey d k then d.map Prod.fst else d.map Prod.fst ++ [k] := by
  induction d with
  | nil => simp [dictSet, dictHasKey]
  | cons p d ih =>
      obtain ⟨k', v'⟩ := p
      by_cases h : k' = k
      · simp [dictSet, dictHasKey, h]
      · simp only [dictSet, dictHasKey, if_neg h, List.map_cons, ih]
        by_cases h' : dictHasKey d k <;> simp [h']

theorem keys_nodup_dictSet {α : Type} (d : Dict α) (k : String) (v : α)
    (h : (d.map Prod.fst).Nodup) : ((dictSet d k v).map Prod.fst).Nodup := by
  rw [keys_dictSet]
  by_cases hk : dictHasKey d k
  · simpa [hk]
  · have hk' : k ∉ d.map Prod.fst := fun hmem =>
      hk ((dictHasKey_iff_mem_keys d k).mpr hmem)
    simp only [if_neg hk]
    refine List.Nodup.append h (List.nodup_singleton k) ?_
    intro a ha hb
    rw [List.mem_singleton] at hb
    exact hk' (hb ▸ ha)

/-! Section: lemmas about order-preserving deduplication. -/

theorem mem_dedupFirstAux_imp {x : String} :
    ∀ (l seen : List String), x ∈ dedupFirstAux seen l → x ∈ l ∧ x ∉ seen := by
  intro l
  induction l with
  | nil => intro seen h; simp [dedupFirstAux] at h
  | cons y ys ih =>
      intro seen h
      by_cases hy : y ∈ seen
      · rcases ih seen (by simpa [dedupFirstAux, hy] using h) with ⟨h₁, h₂⟩
        exact ⟨List.mem_cons_of_mem y h₁, h₂⟩
      · simp only [dedupFirstAux, if_neg hy] at h
        rcases List.mem_cons.mp h with h | h
        · subst h; exact ⟨List.mem_cons_self x ys, hy⟩
        · rcases ih (y :: seen) h with ⟨h₁, h₂⟩
          exact ⟨List.mem_cons_of_mem y h₁, fun hs => h₂ (List.mem_cons_of_mem y hs)⟩

theorem dedupFirstAux_nodup : ∀ (l seen : List String), (dedupFirstAux seen l).Nodup := by
  intro l
  induction l with
  | nil => intro seen; simp [dedupFirstAux]
  | cons y ys ih =>
      intro seen
      by_cases hy : y ∈ seen
      · simpa [dedupFirstAux, hy] using ih seen
      · simp only [dedupFirstAux, if_neg hy, List.nodup_cons]
        refine ⟨fun hmem => ?_, ih (y :: seen)⟩
        exact (mem_dedupFirstAux_imp ys (y :: seen) hmem).2 (List.mem_cons_self y seen)

theorem dedupFirstAux_sublist : ∀ (l seen : List String),
    List.Sublist (dedupFirstAux seen l) l := by
  intro l
  induction l with
  | nil => intro seen; simp [dedupFirstAux]
  | cons y ys ih =>
      intro seen
      by_cases hy : y ∈ seen
      · simpa [dedupFirstAux, hy] using List.Sublist.cons y (ih seen)
      · simpa [dedupFirstAux, hy] using List.Sublist.cons₂ y (ih (y :: seen))

theorem mem_dedupFirstAux_of_mem {x : String} :
    ∀ (l seen : List String), x ∈ l → x ∉ seen → x ∈ dedupFirstAux seen l := by
  intro l
  induction l with
  | nil => intro seen h _; simp at h
  | cons y ys ih =>
      intro seen hmem hseen
      by_cases hy : y ∈ seen
      · have hx : x ∈ ys := by
          rcases List.mem_cons.mp hmem with h | h
          · exact absurd (h ▸ hy) hseen
          · exact h
        simpa [dedupFirstAux, hy] using ih seen hx hseen
      · simp only [dedupFirstAux, if_neg hy]
        by_cases hxy : x = y
        · exact hxy ▸ List.mem_cons_self y _
        · have hx : x ∈ ys := by
            rcases List.mem_cons.mp hmem with h | h
            · exact absurd h hxy
            · exact h
          exact List.mem_cons_of_mem y
            (ih (y :: seen) hx (by simp [hxy, hseen]))

theorem dedupFirst_nodup (l : List String) : (dedupFirst l).Nodup :=
  dedupFirstAux_nodup l []

theorem dedupFirst_sublist (l : List String) : List.Sublist (dedupFirst l) l :=
  dedupFirstAux_sublist l []

theorem mem_dedupFirst (l : List String) (x : String) :
    x ∈ dedupFirst l ↔ x ∈ l := by
  constructor
  · intro h; exact (mem_dedupFirstAux_imp l [] h).1
  · intro h; exact mem_dedupFirstAux_of_mem l [] h (by simp)

/-! Section: lemmas about the Phase-2 execution loop. -/
theorem enrichStep_skip (gw : String → Option (Args → Except String RVal))
    (pmids : List String) (st : EnrichState) (n : String) (args : Args)
    (h : max_calls_per_tool ≤ getCount st.tool_call_counts n) :
    enrichStep gw pmids st (OracleItem.function_call n args) =
      { st with tool_call_counts :=
          dictSet st.tool_call_counts n (getCount st.tool_call_counts n + 1) } := by
  have hlt : max_calls_per_tool < getCount st.tool_call_counts n + 1 :=
    Nat.lt_succ_of_le h
  simp [enrichStep, hlt]

theorem enrichStep_exec_ok (gw : String → Option (Args → Except String RVal))
    (pmids : List String) (st : EnrichState) (n : String) (args : Args)
    (f : Args → Except String RVal) (r : RVal)
    (hcap : getCount st.tool_call_counts n < max_calls_per_tool)
    (hgw : gw n = some f)
    (hr : f (injectExcludePmids pmids n args) = Except.ok r) :
    enrichStep gw pmids st (OracleItem.function_call n args) =
      { results := dictSet st.results n r
        tool_call_counts := dictSet st.tool_call_counts n (getCount st.tool_call_counts n + 1)
        tools_executed := st.tools_executed ++
          [{ name := n, arguments := some (injectExcludePmids pmids n args)
             result_count := lenIfList r
             results := some (ExecResults.neoValue r) }] } := by
  have hlt : ¬ max_calls_per_tool < getCount st.tool_call_counts n + 1 := by omega
  simp [enrichStep, hlt, hgw, hr]

theorem enrichStep_exec_err (gw : String → Option (Args → Except String RVal))
    (pmids : List String) (st : EnrichState) (n : String) (args : Args)
    (f : Args → Except String RVal) (e : String)
    (hcap : getCount st.tool_call_counts n < max_calls_per_tool)
    (hgw : gw n = some f)
    (hr : f (injectExcludePmids pmids n args) = Except.error e) :
    enrichStep gw pmids st (OracleItem.function_call n args) =
      { results := dictSet st.results n (RVal.str ("Error: " ++ e))
        tool_call_counts := dictSet st.tool_call_counts n (getCount st.tool_call_counts n + 1)
        tools_executed := st.tools_executed ++
          [{ name := n, arguments := some (injectExcludePmids pmids n args)
             result_count := some 0, results := none }] } := by
  have hlt : ¬ max_calls_per_tool < getCount st.tool_call_counts n + 1 := by omega
  simp [enrichStep, hlt, hgw, hr]

theorem enrichStep_nogw (gw : String → Option (Args → Except String RVal))
    (pmids : List String) (st : EnrichState) (n : String) (args : Args)
    (hc : ¬ max_calls_per_tool < getCount st.tool_call_counts n + 1)
    (hgw : gw n = none) :
    enrichStep gw pmids st (OracleItem.function_call n args) =
      { st with tool_call_counts :=
          dictSet st.tool_call_counts n (getCount st.tool_call_counts n + 1) } := by
  simp [enrichStep, hc, hgw]

theorem enrichStep_results_ne (gw : String → Option (Args → Except String RVal))
    (pmids : List String) (st : EnrichState) (m : String) (args : Args) (n : String)
    (h : m ≠ n) :
    dictGet? (enrichStep gw pmids st (OracleItem.function_call m args)).results n
      = dictGet? st.results n := by
  have hne : n ≠ m := Ne.symm h
  by_cases hc : max_calls_per_tool < getCount st.tool_call_counts m + 1
  · simp [enrichStep, hc]
  · cases hgw : gw m with
    | none => simp [enrichStep, hc, hgw]
    | some f =>
        cases hr : f (injectExcludePmids pmids m args) with
        | ok r => simp [enrichStep, hc, hgw, hr, dictGet?_set_ne _ _ _ _ hne]
        | error e => simp [enrichStep, hc, hgw, hr, dictGet?_set_ne _ _ _ _ hne]

theorem enrichStep_counts_ne (gw : String → Option (Args → Except String RVal))
    (pmids : List String) (st : EnrichState) (m : String) (args : Args) (n : String)
    (h : m ≠ n) :
    getCount (enrichStep gw pmids st (OracleItem.function_call m args)).tool_call_counts n
      = getCount st.tool_call_counts n := by
  have hne : n ≠ m := Ne.symm h
  by_cases hc : max_calls_per_tool < getCount st.tool_call_counts m + 1
  · simp [enrichStep, hc, getCount_set_ne _ _ _ _ hne]
  · cases hgw : gw m with
    | none => simp [enrichStep, hc, hgw, getCount_set_ne _ _ _ _ hne]
    | some f =>
        cases hr : f (injectExcludePmids pmids m args) with
        | ok r => simp [enrichStep, hc, hgw, hr, getCount_set_ne _ _ _ _ hne]
        | error e => simp [enrichStep, hc, hgw, hr, getCount_set_ne _ _ _ _ hne]

theorem enrich_fold_tools (gw : String → Option (Args → Except String RVal))
    (pmids : List String) :
    ∀ (ys : List OracleItem) (st : EnrichState),
      (List.foldl (enrichStep gw pmids) st ys).tools_executed
        = st.tools_executed ++ toolsDelta gw pmids st.tool_call_counts ys := by
  intro ys
  induction ys with
  | nil => intro st; simp [toolsDelta]
  | cons item ys ih =>
      intro st
      cases item with
      | other => simpa [toolsDelta, enrichStep] using ih st
      | function_call name args0 =>
          by_cases hc : max_calls_per_tool < getCount st.tool_call_counts name + 1
          · rw [List.foldl_cons,
              enrichStep_skip gw pmids st name args0 (Nat.le_of_lt_succ hc), ih]
            simp [toolsDelta, hc]
          · cases hgw : gw name with
            | none =>
                rw [List.foldl_cons, enrichStep_nogw gw pmids st name args0 hc hgw, ih]
                simp [toolsDelta, hc, hgw]
            | some f =>
                cases hr : f (injectExcludePmids pmids name args0) with
                | ok r =>
                    rw [List.foldl_cons,
                      enrichStep_exec_ok gw pmids st name args0 f r
                        (Nat.lt_of_not_le (fun hle => hc (Nat.lt_succ_of_le hle))) hgw hr, ih]
                    simp [toolsDelta, hc, hgw, hr]
                | error e =>
                    rw [List.foldl_cons,
                      enrichStep_exec_err gw pmids st name args0 f e
                        (Nat.lt_of_not_le (fun hle => hc (Nat.lt_succ_of_le hle))) hgw hr, ih]
                    simp [toolsDelta, hc, hgw, hr]

theorem countFC_cons_other (ys : List OracleItem) (n : String) :
    countFC (OracleItem.other :: ys) n = countFC ys n := by
  simp [countFC, isCallNamed]

theorem countFC_cons_ne (ys : List OracleItem) (m n : String) (args : Args)
    (h : m ≠ n) :
    countFC (OracleItem.function_call m args :: ys) n = countFC ys n := by
  simp [countFC, isCallNamed, h]

theorem countFC_cons_self (ys : List OracleItem) (n : String) (args : Args) :
    countFC (OracleItem.function_call n args :: ys) n = countFC ys n + 1 := by
  simp [countFC, isCallNamed]

/-- The results mapping at key `n` is untouched by running the loop over a
response that either contains no call named `n` or whose starting counter
for `n` has already reached the cap (every such call is then skipped). -/
theorem enrich_results_stable (gw : String → Option (Args → Except String RVal))
    (pmids : List String) (n : String) :
    ∀ (ys : List OracleItem) (st : EnrichState),
      (countFC ys n = 0 ∨ max_calls_per_tool ≤ getCount st.tool_call_counts n) →
      dictGet? (List.foldl (enrichStep gw pmids) st ys).results n
        = dictGet? st.results n := by
  intro ys
  induction ys with
  | nil => intro st _; simp
  | cons item ys ih =>
      intro st hyp
      cases item with
      | other =>
          rw [List.foldl_cons]
          have hstep : enrichStep gw pmids st OracleItem.other = st := by
            simp [enrichStep]
          rw [hstep]
          apply ih st
          rcases hyp with h0 | h3
          · exact Or.inl (by rwa [countFC_cons_other] at h0)
          · exact Or.inr h3
      | function_call m args =>
          by_cases hm : m = n
          · subst hm
            rcases hyp with h0 | h3
            · rw [countFC_cons_self] at h0; omega
            · rw [List.foldl_cons, enrichStep_skip gw pmids st m args h3]
              apply ih
              right
              simp only [getCount_set_self]
              omega
          · rw [List.foldl_cons]
            have hres := enrichStep_results_ne gw pmids st m args n hm
            have hcnt := enrichStep_counts_ne gw pmids st m args n hm
            have hyp' : countFC ys n = 0 ∨ max_calls_per_tool ≤
                getCount (enrichStep gw pmids st
                  (OracleItem.function_call m args)).tool_call_counts n := by
              rcases hyp with h0 | h3
              · exact Or.inl (by rwa [countFC_cons_ne ys m n args hm] at h0)
              · exact Or.inr (by rwa [hcnt])
            rw [ih _ hyp', hres]

/-- At most `3 - (calls already counted, capped at 3)` executions of any
one tool can still be appended to the trace. -/
theorem toolsDelta_cap (gw : String → Option (Args → Except String RVal))
    (pmids : List String) (n : String) :
    ∀ (ys : List OracleItem) (c : Dict Nat),
      ((toolsDelta gw pmids c ys).filter (fun t => t.name == n)).length
        ≤ max_calls_per_tool - min max_calls_per_tool (getCount c n) := by
  intro ys
  induction ys with
  | nil => intro c; simp [toolsDelta]
  | cons item ys ih =>
      intro c
      cases item with
      | other => simpa [toolsDelta] using ih c
      | function_call m args =>
          by_cases hm : m = n
          · subst hm
            have h := ih (dictSet c m (getCount c m + 1))
            rw [getCount_set_self] at h
            by_cases hc : max_calls_per_tool < getCount c m + 1
            · -- the call is skipped; both bounds are zero
              have hb : max_calls_per_tool - min max_calls_per_tool (getCount c m + 1)
                  ≤ max_calls_per_tool - min max_calls_per_tool (getCount c m) := by
                simp only [max_calls_per_tool] at hc ⊢
                omega
              simpa [toolsDelta, hc] using le_trans h hb
            · cases hgw : gw m with
              | none =>
                  have hb : max_calls_per_tool - min max_calls_per_tool (getCount c m + 1)
                      ≤ max_calls_per_tool - min max_calls_per_tool (getCount c m) := by
                    simp only [max_calls_per_tool] at hc ⊢
                    omega
                  simpa [toolsDelta, hc, hgw] using le_trans h hb
              | some f =>
                  have harith : 1 + (max_calls_per_tool - min max_calls_per_tool (getCount c m + 1))
                      ≤ max_calls_per_tool - min max_calls_per_tool (getCount c m) := by
                    simp only [max_calls_per_tool] at hc ⊢
                    omega
                  cases hr : f (injectExcludePmids pmids m args) with
                  | ok r =>
                      simp [toolsDelta, hc, hgw, hr, List.filter_cons]
                      omega
                  | error e =>
                      simp [toolsDelta, hc, hgw, hr, List.filter_cons]
                      omega
          · have h := ih (dictSet c m (getCount c m + 1))
            rw [getCount_set_ne c m n _ (Ne.symm hm)] at h
            by_cases hc : max_calls_per_tool < getCount c m + 1
            · simpa [toolsDelta, hc] using h
            · cases hgw : gw m with
              | none => simpa [toolsDelta, hc, hgw] using h
              | some f =>
                  cases hr : f (injectExcludePmids pmids m args) with
                  | ok r => simpa [toolsDelta, hc, hgw, hr, List.filter_cons, hm] using h
                  | error e => simpa [toolsDelta, hc, hgw, hr, List.filter_cons, hm] using h

/-- Every trace record the Phase-2 loop can append carries either a
successful result with its natural count, or `results = None` with
count `0` (the exception branch). -/
theorem toolsDelta_shape (gw : String → Option (Args → Except String RVal))
    (pmids : List String) :
    ∀ (ys : List OracleItem) (c : Dict Nat), ∀ te ∈ toolsDelta gw pmids c ys,
      (∃ r, te.results = some (ExecResults.neoValue r) ∧ te.result_count = lenIfList r)
        ∨ (te.results = none ∧ te.result_count = some 0) := by
  intro ys
  induction ys with
  | nil => intro c te hte; simp [toolsDelta] at hte
  | cons item ys ih =>
      intro c te hte
      cases item with
      | other => exact ih c te (by simpa [toolsDelta] using hte)
      | function_call m args =>
          by_cases hc : max_calls_per_tool < getCount c m + 1
          · exact ih _ te (by simpa [toolsDelta, hc] using hte)
          · cases hgw : gw m with
            | none => exact ih _ te (by simpa [toolsDelta, hc, hgw] using hte)
            | some f =>
                cases hr : f (injectExcludePmids pmids m args) with
                | ok r =>
                    simp only [toolsDelta, if_neg hc, hgw, hr, List.mem_cons] at hte
                    rcases hte with hte | hte
                    · subst hte; exact Or.inl ⟨r, rfl, rfl⟩
                    · exact ih _ te hte
                | error e =>
                    simp only [toolsDelta, if_neg hc, hgw, hr, List.mem_cons] at hte
                    rcases hte with hte | hte
                    · subst hte; exact Or.inr ⟨rfl, rfl⟩
                    · exact ih _ te hte

/-- One loop iteration either leaves the results mapping alone or performs
a single Python-dict assignment on it. -/
theorem enrichStep_results_cases (gw : String → Option (Args → Except String RVal))
    (pmids : List String) (st : EnrichState) (item : OracleItem) :
    (enrichStep gw pmids st item).results = st.results ∨
    ∃ k v, (enrichStep gw pmids st item).results = dictSet st.results k v := by
  cases item with
  | other => exact Or.inl rfl
  | function_call m args =>
      by_cases hc : max_calls_per_tool < getCount st.tool_call_counts m + 1
      · exact Or.inl (by simp [enrichStep, hc])
      · cases hgw : gw m with
        | none => exact Or.inl (by simp [enrichStep, hc, hgw])
        | some f =>
            cases hr : f (injectExcludePmids pmids m args) with
            | ok r => exact Or.inr ⟨m, r, by simp [enrichStep, hc, hgw, hr]⟩
            | error e => exact Or.inr ⟨m, RVal.str ("Error: " ++ e), by simp [enrichStep, hc, hgw, hr]⟩

/-- The keys of the results mapping stay duplicate-free through the loop. -/
theorem enrich_fold_results_keys_nodup (gw : String → Option (Args → Except String RVal))
    (pmids : List String) :
    ∀ (ys : List OracleItem) (st : EnrichState),
      ((st.results).map Prod.fst).Nodup →
      (((List.foldl (enrichStep gw pmids) st ys).results).map Prod.fst).Nodup := by
  intro ys
  induction ys with
  | nil => intro st h; simpa using h
  | cons item ys ih =>
      intro st h
      rw [List.foldl_cons]
      apply ih
      rcases enrichStep_results_cases gw pmids st item with hcase | ⟨k, v, hcase⟩
      · rwa [hcase]
      · rw [hcase]; exact keys_nodup_dictSet st.results k v h

/-- Combined form of the two execution branches: an in-cap, resolvable
call stores `valueOf` of the gateway outcome and appends `execRecordOf`. -/
theorem enrichStep_exec (gw : String → Option (Args → Except String RVal))
    (pmids : List String) (st : EnrichState) (n : String) (args : Args)
    (f : Args → Except String RVal)
    (hcap : getCount st.tool_call_counts n < max_calls_per_tool)
    (hgw : gw n = some f) :
    enrichStep gw pmids st (OracleItem.function_call n args) =
      { results := dictSet st.results n (valueOf (f (injectExcludePmids pmids n args)))
        tool_call_counts := dictSet st.tool_call_counts n (getCount st.tool_call_counts n + 1)
        tools_executed := st.tools_executed ++
          [execRecordOf n (injectExcludePmids pmids n args)
            (f (injectExcludePmids pmids n args))] } := by
  cases hr : f (injectExcludePmids pmids n args) with
  | ok r =>
      rw [enrichStep_exec_ok gw pmids st n args f r hcap hgw hr]
      simp [valueOf, execRecordOf, hr]
  | error e =>
      rw [enrichStep_exec_err gw pmids st n args f e hcap hgw hr]
      simp [valueOf, execRecordOf, hr]

/-- Everything the loop has already appended to the trace stays there. -/
theorem enrich_fold_tools_mem (gw : String → Option (Args → Except String RVal))
    (pmids : List String) (ys : List OracleItem) (st : EnrichState)
    (te : ToolExecution) (h : te ∈ st.tools_executed) :
    te ∈ (List.foldl (enrichStep gw pmids) st ys).tools_executed := by
  rw [enrich_fold_tools]
  exact List.mem_append_left _ h

/-! Section: the claims. -/

/-- C1: in every Phase-2 enrichment run, at most 3 of the oracle's function
calls with any given tool name are executed — the trace never carries more
than 3 records with that name, and entries are appended in the order the
calls are received; a call past the cap is skipped: it leaves the results
mapping and the trace exactly as they were (no `ToolExecution`, no error
marker) and only advances the per-tool counter. -/
theorem c1_per_tool_cap (gw : String → Option (Args → Except String RVal))
    (question : String) (qres : List RetrievedItem) (oracle : List OracleItem)
    (n : String) (st : EnrichState) (args : Args)
    (h : max_calls_per_tool ≤ getCount st.tool_call_counts n) :
    (((run_graph_enrichment gw question qres oracle).tools).filter
        (fun t => t.name == n)).length ≤ max_calls_per_tool
    ∧ (enrichStep gw (extractQdrantContext qres).pmids st
        (OracleItem.function_call n args)).results = st.results
    ∧ (enrichStep gw (extractQdrantContext qres).pmids st
        (OracleItem.function_call n args)).tools_executed = st.tools_executed := by
  refine ⟨?_, ?_, ?_⟩
  · have htools : (run_graph_enrichment gw question qres oracle).tools
        = toolsDelta gw (extractQdrantContext qres).pmids [] oracle := by
      have hf := enrich_fold_tools gw (extractQdrantContext qres).pmids oracle enrichInit
      simpa [run_graph_enrichment, enrichInit] using hf
    rw [htools]
    have hcap := toolsDelta_cap gw (extractQdrantContext qres).pmids n oracle []
    simpa [getCount, dictGet?] using hcap
  · rw [enrichStep_skip gw (extractQdrantContext qres).pmids st n args h]
  · rw [enrichStep_skip gw (extractQdrantContext qres).pmids st n args h]

/-- Witness for C1 at concrete inputs: an oracle proposing five identical
calls yields at most 3 trace entries for that tool, and a skipped call
leaves a capped state's mapping and trace untouched. -/
theorem c1_per_tool_cap_witness :
    (max_calls_per_tool ≤ getCount cappedState.tool_call_counts "get_genes_in_same_papers")
    ∧ ((((run_graph_enrichment sampleGw "q" [] fiveCallOracle).tools).filter
          (fun t => t.name == "get_genes_in_same_papers")).length ≤ max_calls_per_tool
       ∧ (enrichStep sampleGw (extractQdrantContext []).pmids cappedState
            (OracleItem.function_call "get_genes_in_same_papers"
              [("target_gene", AVal.str "gag")])).results = cappedState.results
       ∧ (enrichStep sampleGw (extractQdrantContext []).pmids cappedState
            (OracleItem.function_call "get_genes_in_same_papers"
              [("target_gene", AVal.str "gag")])).tools_executed
          = cappedState.tools_executed) :=
  ⟨by decide,
   c1_per_tool_cap sampleGw "q" [] fiveCallOracle "get_genes_in_same_papers"
     cappedState [("target_gene", AVal.str "gag")] (by decide)⟩

/-- C2: whenever the Phase-1 oracle response ends with a function call, the
arguments actually passed to the gateway and the arguments recorded in the
`ToolExecution` are the oracle's arguments with `top_k` overridden to the
caller-supplied limit `L` (whatever the oracle proposed), and — assuming
the gateway returns `min available L` items for those arguments — the
recorded `result_count` equals `min available L`. -/
theorem c2_top_k_override (qgw : String → Option (Args → List RetrievedItem))
    (question : String) (L : Nat) (pre : List OracleItem) (n : String)
    (args0 : Args) (f : Args → List RetrievedItem) (avail : Nat)
    (hgw : qgw n = some f)
    (hmin : (f (dictSet args0 "top_k" (AVal.nat L))).length = min avail L) :
    (run_qdrant_vector_search qgw question L
        (pre ++ [OracleItem.function_call n args0])).tool.arguments
      = some (dictSet args0 "top_k" (AVal.nat L))
    ∧ dictGet? (dictSet args0 "top_k" (AVal.nat L)) "top_k" = some (AVal.nat L)
    ∧ (run_qdrant_vector_search qgw question L
        (pre ++ [OracleItem.function_call n args0])).results
      = f (dictSet args0 "top_k" (AVal.nat L))
    ∧ (run_qdrant_vector_search qgw question L
        (pre ++ [OracleItem.function_call n args0])).tool.result_count
      = some (min avail L) := by
  refine ⟨?_, dictGet?_set_self args0 "top_k" (AVal.nat L), ?_, ?_⟩ <;>
    simp [run_qdrant_vector_search, List.foldl_append, qdrantStep, hgw, hmin]

/-- Witness for C2 at concrete inputs: limit 2, an oracle that proposed
`top_k = 50`, a hybrid-search stub with 3 available matches. -/
theorem c2_top_k_override_witness :
    (sampleQgw "retrieve_papers_hybrid" = some hybridStub
     ∧ (hybridStub (dictSet [("query", AVal.str "crispr"), ("top_k", AVal.nat 50)]
          "top_k" (AVal.nat 2))).length = min 3 2)
    ∧ ((run_qdrant_vector_search sampleQgw "q" 2
          [OracleItem.function_call "retrieve_papers_hybrid"
            [("query", AVal.str "crispr"), ("top_k", AVal.nat 50)]]).tool.arguments
        = some (dictSet [("query", AVal.str "crispr"), ("top_k", AVal.nat 50)]
            "top_k" (AVal.nat 2))
       ∧ dictGet? (dictSet [("query", AVal.str "crispr"), ("top_k", AVal.nat 50)]
            "top_k" (AVal.nat 2)) "top_k" = some (AVal.nat 2)
       ∧ (run_qdrant_vector_search sampleQgw "q" 2
            [OracleItem.function_call "retrieve_papers_hybrid"
              [("query", AVal.str "crispr"), ("top_k", AVal.nat 50)]]).results
          = hybridStub (dictSet [("query", AVal.str "crispr"), ("top_k", AVal.nat 50)]
              "top_k" (AVal.nat 2))
       ∧ (run_qdrant_vector_search sampleQgw "q" 2
            [OracleItem.function_call "retrieve_papers_hybrid"
              [("query", AVal.str "crispr"), ("top_k", AVal.nat 50)]]).tool.result_count
          = some (min 3 2)) :=
  ⟨⟨rfl, by decide⟩,
   c2_top_k_override sampleQgw "q" 2 [] "retrieve_papers_hybrid"
     [("query", AVal.str "crispr"), ("top_k", AVal.nat 50)] hybridStub 3 rfl (by decide)⟩

/-- C5: the claim that every Graph Query Gateway connection opened during a
Phase-2 invocation is released on every exit path is refuted by the code:
the driver constructed inside `get_neo4j_schema` (connection 0) is never
closed, even on the fully successful path, and when the author-scoring
query raises — which happens before the `try/finally` is entered — the
main driver (connection 1) is not closed either.  Connection 1 is closed
on the success path and on the oracle-failure path (the `finally`). -/
theorem c5_connection_release_refuted :
    (ConnEvent.openConn 0 ∈ run_graph_enrichment_conn_events false false
     ∧ ConnEvent.closeConn 0 ∉ run_graph_enrichment_conn_events false false
     ∧ ConnEvent.closeConn 0 ∉ run_graph_enrichment_conn_events true false
     ∧ ConnEvent.closeConn 0 ∉ run_graph_enrichment_conn_events false true)
    ∧ (ConnEvent.openConn 1 ∈ run_graph_enrichment_conn_events true false
       ∧ ConnEvent.closeConn 1 ∉ run_graph_enrichment_conn_events true false)
    ∧ (ConnEvent.closeConn 1 ∈ run_graph_enrichment_conn_events false false
       ∧ ConnEvent.closeConn 1 ∈ run_graph_enrichment_conn_events false true) := by
  decide

/-- C6: the Phase-1 catalog advertises the constrained recommendation tool
under the name `recommend_papers_based_on_constraints`, but the Vector
Query Gateway's method is named `recommend_papers_based_on_examples`, so
`getattr` misses: when the oracle selects the advertised tool, no gateway
operation runs and the run returns no items — even though the gateway
operation, had it been dispatched, would have returned some (last
conjunct).  The hybrid name does dispatch (first conjunct of the second
group). -/
theorem c6_constraints_tool_not_executed :
    ("recommend_papers_based_on_constraints" ∈ QDRANT_TOOLS_names
     ∧ sampleQgw "recommend_papers_based_on_constraints" = none)
    ∧ ("retrieve_papers_hybrid" ∈ QDRANT_TOOLS_names
       ∧ sampleQgw "retrieve_papers_hybrid" = some hybridStub)
    ∧ run_qdrant_vector_search sampleQgw "q" 2
        [OracleItem.function_call "recommend_papers_based_on_constraints"
          [("negative_examples", AVal.strs ["x"])]]
      = { results := []
          tool := { name := "recommend_papers_based_on_constraints"
                    arguments := some [("negative_examples", AVal.strs ["x"]),
                      ("top_k", AVal.nat 2)]
                    result_count := some 0
                    results := some (ExecResults.qdrantItems []) } }
    ∧ recommendStub [("negative_examples", AVal.strs ["x"]), ("top_k", AVal.nat 2)]
      ≠ [] :=
  ⟨⟨by decide, rfl⟩, ⟨by decide, rfl⟩, by decide, by decide⟩

/-- C9: the trace of a completed pipeline run is exactly the Phase-1
`ToolExecution`, followed by all Phase-2 `ToolExecution`s in execution
order, followed by the terminal `summarize` marker; in particular, when
Phase 2 executes exactly one call the trace has length 3. -/
theorem c9_trace_concatenation (qgw : String → Option (Args → List RetrievedItem))
    (gw : String → Option (Args → Except String RVal))
    (oracle1 oracle2 : List OracleItem) (summary question : String) (limit : Nat) :
    (run_tools_sequence_and_summarize qgw gw oracle1 oracle2 summary question limit).trace
      = [(run_qdrant_vector_search qgw question limit oracle1).tool]
        ++ (run_graph_enrichment gw question
              (run_qdrant_vector_search qgw question limit oracle1).results oracle2).tools
        ++ [{ name := "summarize" }]
    ∧ ((run_graph_enrichment gw question
          (run_qdrant_vector_search qgw question limit oracle1).results oracle2).tools.length = 1 →
        (run_tools_sequence_and_summarize qgw gw oracle1 oracle2
          summary question limit).trace.length = 3) := by
  refine ⟨rfl, fun h => ?_⟩
  simp [run_tools_sequence_and_summarize, List.length_append, h]

/-- Witness for C9 at concrete inputs: one retrieval call, one enrichment
call, one summarize marker — trace length 3. -/
theorem c9_trace_concatenation_witness :
    (run_graph_enrichment sampleGw "q"
        (run_qdrant_vector_search sampleQgw "q" 2 p1OracleSample).results
        p2OracleSample).tools.length = 1
    ∧ (run_tools_sequence_and_summarize sampleQgw sampleGw p1OracleSample
        p2OracleSample "three findings" "q" 2).trace.length = 3 :=
  ⟨by decide,
   (c9_trace_concatenation sampleQgw sampleGw p1OracleSample p2OracleSample
     "three findings" "q" 2).2 (by decide)⟩

/-- C3 counterexample: the claim says the failing call's entry in the
result mapping is a stringified error marker.  Here the first call to
`get_genes_in_same_papers` raises (the gateway error is shown in the third
conjunct, and its trace record — `results = none`, count `0` — in the
second), yet after a later successful call to the same tool name the
mapping entry for the failing call's name is a list, not an error string
(last conjunct: `isStr` is `false`), because the mapping is keyed by tool
name and the last executed call wins. -/
theorem c3_overwrite_counterexample :
    (run_graph_enrichment sampleGw "q" []
        [OracleItem.function_call "get_genes_in_same_papers" [("boom", AVal.null)],
         OracleItem.function_call "get_genes_in_same_papers"
           [("target_gene", AVal.str "gag")]]).results
      = [("get_genes_in_same_papers", RVal.list ["TP53"])]
    ∧ (run_graph_enrichment sampleGw "q" []
        [OracleItem.function_call "get_genes_in_same_papers" [("boom", AVal.null)],
         OracleItem.function_call "get_genes_in_same_papers"
           [("target_gene", AVal.str "gag")]]).tools
      = [{ name := "get_genes_in_same_papers"
           arguments := some [("boom", AVal.null)]
           result_count := some 0, results := none },
         { name := "get_genes_in_same_papers"
           arguments := some [("target_gene", AVal.str "gag")]
           result_count := some 1
           results := some (ExecResults.neoValue (RVal.list ["TP53"])) }]
    ∧ geneStub [("boom", AVal.null)] = Except.error "boom"
    ∧ ((dictGet? (run_graph_enrichment sampleGw "q" []
          [OracleItem.function_call "get_genes_in_same_papers" [("boom", AVal.null)],
           OracleItem.function_call "get_genes_in_same_papers"
             [("target_gene", AVal.str "gag")]]).results
          "get_genes_in_same_papers").map RVal.isStr = some false) := by
  decide

/-- C3 (amended): when one of the proposed enrichment calls raises during
gateway execution, every other call still executes exactly as it would
have (the tail of the trace is `toolsDelta`, which depends only on the
per-tool counters — identical after a success and after a failure), the
failing call contributes its own `ToolExecution` and never aborts the
phase, and the failing call's entry in the result mapping is the
stringified error marker provided no later call with the same tool name
overwrites it (the mapping retains the last executed call's value per
name). -/
theorem c3_partial_failure_amended (gw : String → Option (Args → Except String RVal))
    (question : String) (qres : List RetrievedItem) (pre post : List OracleItem)
    (n : String) (args0 : Args) (f : Args → Except String RVal) (e : String)
    (hgw : gw n = some f)
    (hfail : f (injectExcludePmids (extractQdrantContext qres).pmids n args0)
      = Except.error e)
    (hcap : getCount (List.foldl (enrichStep gw (extractQdrantContext qres).pmids)
        enrichInit pre).tool_call_counts n < max_calls_per_tool)
    (hpost : countFC post n = 0) :
    dictGet? (run_graph_enrichment gw question qres
        (pre ++ OracleItem.function_call n args0 :: post)).results n
      = some (RVal.str ("Error: " ++ e))
    ∧ (run_graph_enrichment gw question qres
        (pre ++ OracleItem.function_call n args0 :: post)).tools
      = (List.foldl (enrichStep gw (extractQdrantContext qres).pmids)
            enrichInit pre).tools_executed
        ++ { name := n
             arguments := some (injectExcludePmids (extractQdrantContext qres).pmids n args0)
             result_count := some 0, results := none }
          :: toolsDelta gw (extractQdrantContext qres).pmids
              (dictSet (List.foldl (enrichStep gw (extractQdrantContext qres).pmids)
                  enrichInit pre).tool_call_counts n
                (getCount (List.foldl (enrichStep gw (extractQdrantContext qres).pmids)
                    enrichInit pre).tool_call_counts n + 1)) post := by
  have hfold : List.foldl (enrichStep gw (extractQdrantContext qres).pmids) enrichInit
      (pre ++ OracleItem.function_call n args0 :: post)
      = List.foldl (enrichStep gw (extractQdrantContext qres).pmids)
          (enrichStep gw (extractQdrantContext qres).pmids
            (List.foldl (enrichStep gw (extractQdrantContext qres).pmids) enrichInit pre)
            (OracleItem.function_call n args0)) post := by
    rw [List.foldl_append, List.foldl_cons]
  have hstep := enrichStep_exec_err gw (extractQdrantContext qres).pmids
    (List.foldl (enrichStep gw (extractQdrantContext qres).pmids) enrichInit pre)
    n args0 f e hcap hgw hfail
  constructor
  · show dictGet? (List.foldl (enrichStep gw (extractQdrantContext qres).pmids) enrichInit
        (pre ++ OracleItem.function_call n args0 :: post)).results n = _
    rw [hfold, hstep,
      enrich_results_stable gw (extractQdrantContext qres).pmids n post _ (Or.inl hpost)]
    exact dictGet?_set_self _ _ _
  · show (List.foldl (enrichStep gw (extractQdrantContext qres).pmids) enrichInit
        (pre ++ OracleItem.function_call n args0 :: post)).tools_executed = _
    rw [hfold, hstep, enrich_fold_tools]
    simp

/-- Witness for C3 (amended) at concrete inputs: one failing gene call
followed by a differently-named related-papers call; the error marker is
in the mapping. -/
theorem c3_partial_failure_amended_witness :
    (geneStub (injectExcludePmids (extractQdrantContext ([] : List RetrievedItem)).pmids
        "get_genes_in_same_papers" [("boom", AVal.null)]) = Except.error "boom"
     ∧ getCount (List.foldl
          (enrichStep sampleGw (extractQdrantContext ([] : List RetrievedItem)).pmids)
          enrichInit []).tool_call_counts "get_genes_in_same_papers" < max_calls_per_tool
     ∧ countFC [OracleItem.function_call "get_related_papers_by_mesh"
          [("pmid", AVal.str "11")]] "get_genes_in_same_papers" = 0)
    ∧ dictGet? (run_graph_enrichment sampleGw "q" []
        ([] ++ OracleItem.function_call "get_genes_in_same_papers" [("boom", AVal.null)]
          :: [OracleItem.function_call "get_related_papers_by_mesh"
               [("pmid", AVal.str "11")]])).results "get_genes_in_same_papers"
      = some (RVal.str ("Error: " ++ "boom")) :=
  ⟨⟨by decide, by decide, by decide⟩,
   (c3_partial_failure_amended sampleGw "q" [] []
     [OracleItem.function_call "get_related_papers_by_mesh" [("pmid", AVal.str "11")]]
     "get_genes_in_same_papers" [("boom", AVal.null)] geneStub "boom"
     rfl (by decide) (by decide) (by decide)).1⟩

/-- C4 counterexample: the claim says `result_count` is null for a call
whose gateway execution raised.  Here the sole executed call raises (third
conjunct shows the gateway error), and its trace record carries
`result_count = some 0` with `results = none` — `0`, not null. -/
theorem c4_error_count_counterexample :
    (run_graph_enrichment sampleGw "q" []
        [OracleItem.function_call "get_genes_in_same_papers" [("boom", AVal.null)]]).tools
      = [{ name := "get_genes_in_same_papers"
           arguments := some [("boom", AVal.null)]
           result_count := some 0, results := none }]
    ∧ geneStub [("boom", AVal.null)] = Except.error "boom"
    ∧ some 0 ≠ (none : Option Nat) := by
  decide

/-- C4 (amended): for every `ToolExecution` recorded during Phase 2, the
`result_count` equals the list length when the call succeeded with a list,
is null when the call succeeded with a non-list value, and is `0` (not
null) when the gateway execution raised — the raised case is exactly the
one with `results = none`. -/
theorem c4_result_count_amended (gw : String → Option (Args → Except String RVal))
    (question : String) (qres : List RetrievedItem) (oracle : List OracleItem) :
    ∀ te ∈ (run_graph_enrichment gw question qres oracle).tools,
      (∃ r, te.results = some (ExecResults.neoValue r) ∧ te.result_count = lenIfList r)
      ∨ (te.results = none ∧ te.result_count = some 0) := by
  intro te hte
  have htools : (run_graph_enrichment gw question qres oracle).tools
      = toolsDelta gw (extractQdrantContext qres).pmids [] oracle := by
    have hf := enrich_fold_tools gw (extractQdrantContext qres).pmids oracle enrichInit
    simpa [run_graph_enrichment, enrichInit] using hf
  rw [htools] at hte
  exact toolsDelta_shape gw (extractQdrantContext qres).pmids oracle [] te hte

/-- Witness for C4 (amended) at concrete inputs: the failing call's record
is in the trace and satisfies the amended disjunction (right disjunct:
`results = none`, count `some 0`). -/
theorem c4_result_count_amended_witness :
    ({ name := "get_genes_in_same_papers"
       arguments := some [("boom", AVal.null)]
       result_count := some 0, results := none : ToolExecution }
      ∈ (run_graph_enrichment sampleGw "q" []
          [OracleItem.function_call "get_genes_in_same_papers" [("boom", AVal.null)]]).tools)
    ∧ ((∃ r, ({ name := "get_genes_in_same_papers"
                arguments := some [("boom", AVal.null)]
                result_count := some 0, results := none : ToolExecution }).results
            = some (ExecResults.neoValue r)
          ∧ ({ name := "get_genes_in_same_papers"
               arguments := some [("boom", AVal.null)]
               result_count := some 0, results := none : ToolExecution }).result_count
            = lenIfList r)
       ∨ (({ name := "get_genes_in_same_papers"
             arguments := some [("boom", AVal.null)]
             result_count := some 0, results := none : ToolExecution }).results = none
          ∧ ({ name := "get_genes_in_same_papers"
               arguments := some [("boom", AVal.null)]
               result_count := some 0, results := none : ToolExecution }).result_count
            = some 0)) :=
  ⟨by decide,
   c4_result_count_amended sampleGw "q" []
     [OracleItem.function_call "get_genes_in_same_papers" [("boom", AVal.null)]]
     { name := "get_genes_in_same_papers"
       arguments := some [("boom", AVal.null)]
       result_count := some 0, results := none } (by decide)⟩

/-- C7: for every executed Phase-2 call, the arguments the gateway sees
(and the trace records) are the oracle's arguments passed through the
injection step: for the two tools with an exclusion-list contract
(collaborator search, related-papers search) a missing `exclude_pmids`
gets the deduplicated Phase-1 pmid list (second conjunct ties that list
to the entity extractor's dedup), an oracle-supplied value is kept
unchanged, and every other tool's arguments are never touched. -/
theorem c7_exclusion_injection (gw : String → Option (Args → Except String RVal))
    (question : String) (qres : List RetrievedItem) (pre post : List OracleItem)
    (n : String) (args0 : Args) (f : Args → Except String RVal)
    (hgw : gw n = some f)
    (hcap : getCount (List.foldl (enrichStep gw (extractQdrantContext qres).pmids)
        enrichInit pre).tool_call_counts n < max_calls_per_tool) :
    (execRecordOf n (injectExcludePmids (extractQdrantContext qres).pmids n args0)
        (f (injectExcludePmids (extractQdrantContext qres).pmids n args0))
      ∈ (run_graph_enrichment gw question qres
          (pre ++ OracleItem.function_call n args0 :: post)).tools)
    ∧ (extractQdrantContext qres).pmids = dedupFirst (qres.filterMap pmidOf)
    ∧ (∀ (m : String) (a : Args),
        (m = "get_collaborators_with_topics" ∨ m = "get_related_papers_by_mesh") →
        (dictHasKey a "exclude_pmids" = false →
          injectExcludePmids (extractQdrantContext qres).pmids m a
            = a ++ [("exclude_pmids", AVal.strs (extractQdrantContext qres).pmids)])
        ∧ (dictHasKey a "exclude_pmids" = true →
          injectExcludePmids (extractQdrantContext qres).pmids m a = a))
    ∧ (∀ (m : String) (a : Args),
        ¬(m = "get_collaborators_with_topics" ∨ m = "get_related_papers_by_mesh") →
        injectExcludePmids (extractQdrantContext qres).pmids m a = a) := by
  refine ⟨?_, rfl, ?_, ?_⟩
  · have hfold : List.foldl (enrichStep gw (extractQdrantContext qres).pmids) enrichInit
        (pre ++ OracleItem.function_call n args0 :: post)
        = List.foldl (enrichStep gw (extractQdrantContext qres).pmids)
            (enrichStep gw (extractQdrantContext qres).pmids
              (List.foldl (enrichStep gw (extractQdrantContext qres).pmids) enrichInit pre)
              (OracleItem.function_call n args0)) post := by
      rw [List.foldl_append, List.foldl_cons]
    have hstep := enrichStep_exec gw (extractQdrantContext qres).pmids
      (List.foldl (enrichStep gw (extractQdrantContext qres).pmids) enrichInit pre)
      n args0 f hcap hgw
    show execRecordOf n (injectExcludePmids (extractQdrantContext qres).pmids n args0)
        (f (injectExcludePmids (extractQdrantContext qres).pmids n args0))
      ∈ (List.foldl (enrichStep gw (extractQdrantContext qres).pmids) enrichInit
          (pre ++ OracleItem.function_call n args0 :: post)).tools_executed
    rw [hfold, hstep]
    apply enrich_fold_tools_mem
    simp
  · intro m a hm
    constructor
    · intro hk
      unfold injectExcludePmids
      rw [if_pos hm]
      unfold dictSetdefault
      rw [hk]
      simp
    · intro hk
      unfold injectExcludePmids
      rw [if_pos hm]
      unfold dictSetdefault
      rw [hk]
      simp
  · intro m a hm
    unfold injectExcludePmids
    rw [if_neg hm]

/-- Witness for C7 at concrete inputs: a collaborator-search call without
`exclude_pmids` gets the deduplicated pmid list `["11", "22"]` appended,
and the executed record in the trace carries the injected arguments. -/
theorem c7_exclusion_injection_witness :
    (sampleGw "get_collaborators_with_topics" = some collabStub
     ∧ getCount (List.foldl
          (enrichStep sampleGw (extractQdrantContext [sampleItem "11", sampleItem "22"]).pmids)
          enrichInit []).tool_call_counts "get_collaborators_with_topics" < max_calls_per_tool)
    ∧ (execRecordOf "get_collaborators_with_topics"
        (injectExcludePmids (extractQdrantContext [sampleItem "11", sampleItem "22"]).pmids
          "get_collaborators_with_topics" [("author_name", AVal.str "Alice Smith")])
        (collabStub (injectExcludePmids
          (extractQdrantContext [sampleItem "11", sampleItem "22"]).pmids
          "get_collaborators_with_topics" [("author_name", AVal.str "Alice Smith")]))
      ∈ (run_graph_enrichment sampleGw "q" [sampleItem "11", sampleItem "22"]
          ([] ++ OracleItem.function_call "get_collaborators_with_topics"
            [("author_name", AVal.str "Alice Smith")] :: [])).tools)
    ∧ injectExcludePmids (extractQdrantContext [sampleItem "11", sampleItem "22"]).pmids
        "get_collaborators_with_topics" [("author_name", AVal.str "Alice Smith")]
      = [("author_name", AVal.str "Alice Smith"), ("exclude_pmids", AVal.strs ["11", "22"])] :=
  ⟨⟨rfl, by decide⟩,
   (c7_exclusion_injection sampleGw "q" [sampleItem "11", sampleItem "22"] [] []
     "get_collaborators_with_topics" [("author_name", AVal.str "Alice Smith")] collabStub
     rfl (by decide)).1,
   by decide⟩

/-- C8: the entity extractor returns four lists with no duplicates, each a
subsequence of the raw collection order (first-occurrence order kept), and
every element is drawn from some input item's payload — the pmid field, or
an author / MeSH-term / gene entry whose extracted name it is; missing and
malformed fields contribute nothing (the extraction is total and simply
skips them). -/
theorem c8_entity_extractor (items : List RetrievedItem) :
    ((extractQdrantContext items).pmids.Nodup
     ∧ (extractQdrantContext items).authors.Nodup
     ∧ (extractQdrantContext items).mesh_terms.Nodup
     ∧ (extractQdrantContext items).genes.Nodup)
    ∧ (List.Sublist (extractQdrantContext items).pmids (items.filterMap pmidOf)
       ∧ List.Sublist (extractQdrantContext items).authors
          (items.flatMap (fun r => collectEntries r.payload.paper.authors))
       ∧ List.Sublist (extractQdrantContext items).mesh_terms
          (items.flatMap (fun r => collectEntries r.payload.paper.mesh_terms))
       ∧ List.Sublist (extractQdrantContext items).genes
          (items.flatMap (fun r => collectEntries r.payload.genes)))
    ∧ ((∀ x ∈ (extractQdrantContext items).pmids,
          ∃ r, r ∈ items ∧ pmidOf r = some x)
       ∧ (∀ x ∈ (extractQdrantContext items).authors,
          ∃ r, r ∈ items ∧ ∃ e, e ∈ r.payload.paper.authors ∧ PEntry.extracted e = some x)
       ∧ (∀ x ∈ (extractQdrantContext items).mesh_terms,
          ∃ r, r ∈ items ∧ ∃ e, e ∈ r.payload.paper.mesh_terms ∧ PEntry.extracted e = some x)
       ∧ (∀ x ∈ (extractQdrantContext items).genes,
          ∃ r, r ∈ items ∧ ∃ e, e ∈ r.payload.genes ∧ PEntry.extracted e = some x)) := by
  refine ⟨⟨dedupFirst_nodup _, dedupFirst_nodup _, dedupFirst_nodup _, dedupFirst_nodup _⟩,
    ⟨dedupFirst_sublist _, dedupFirst_sublist _, dedupFirst_sublist _, dedupFirst_sublist _⟩,
    ?_, ?_, ?_, ?_⟩
  · intro x hx
    have hx0 : x ∈ dedupFirst (items.filterMap pmidOf) := hx
    exact List.mem_filterMap.mp ((mem_dedupFirst _ x).mp hx0)
  · intro x hx
    have hx0 : x ∈ dedupFirst
        (items.flatMap (fun r => collectEntries r.payload.paper.authors)) := hx
    rcases List.mem_flatMap.mp ((mem_dedupFirst _ x).mp hx0) with ⟨r, hr, hxr⟩
    have hxr' : x ∈ (r.payload.paper.authors).filterMap PEntry.extracted := hxr
    rcases List.mem_filterMap.mp hxr' with ⟨e, he, hee⟩
    exact ⟨r, hr, e, he, hee⟩
  · intro x hx
    have hx0 : x ∈ dedupFirst
        (items.flatMap (fun r => collectEntries r.payload.paper.mesh_terms)) := hx
    rcases List.mem_flatMap.mp ((mem_dedupFirst _ x).mp hx0) with ⟨r, hr, hxr⟩
    have hxr' : x ∈ (r.payload.paper.mesh_terms).filterMap PEntry.extracted := hxr
    rcases List.mem_filterMap.mp hxr' with ⟨e, he, hee⟩
    exact ⟨r, hr, e, he, hee⟩
  · intro x hx
    have hx0 : x ∈ dedupFirst
        (items.flatMap (fun r => collectEntries r.payload.genes)) := hx
    rcases List.mem_flatMap.mp ((mem_dedupFirst _ x).mp hx0) with ⟨r, hr, hxr⟩
    have hxr' : x ∈ (r.payload.genes).filterMap PEntry.extracted := hxr
    rcases List.mem_filterMap.mp hxr' with ⟨e, he, hee⟩
    exact ⟨r, hr, e, he, hee⟩

/-- Witness for C8 at concrete inputs: a duplicated item plus an item with
missing/malformed fields; the resulting bundle is deduplicated and the
author `"Alice Smith"` traces back to an input payload entry. -/
theorem c8_entity_extractor_witness :
    ("Alice Smith" ∈ (extractQdrantContext [sampleItem "11", malformedItem,
        sampleItem "11"]).authors)
    ∧ (∃ r, r ∈ [sampleItem "11", malformedItem, sampleItem "11"]
        ∧ ∃ e, e ∈ r.payload.paper.authors ∧ PEntry.extracted e = some "Alice Smith")
    ∧ (extractQdrantContext [sampleItem "11", malformedItem, sampleItem "11"]).pmids.Nodup
    ∧ extractQdrantContext [sampleItem "11", malformedItem, sampleItem "11"]
      = { pmids := ["11"], authors := ["Alice Smith", "Bob Lee"]
          mesh_terms := ["CRISPR"], genes := ["BRCA1"] } :=
  ⟨by decide,
   (c8_entity_extractor [sampleItem "11", malformedItem, sampleItem "11"]).2.2.2.1
     "Alice Smith" (by decide),
   (c8_entity_extractor [sampleItem "11", malformedItem, sampleItem "11"]).1.1,
   by decide⟩

/-- C10: the Phase-2 results mapping holds at most one entry per tool name
(its key list is duplicate-free), and when several calls to the same tool
execute, the mapping retains exactly the value — result or error marker —
of the last executed call with that name, while the trace keeps one
`ToolExecution` per executed call (the decomposition in the last
conjunct). -/
theorem c10_mapping_last_wins (gw : String → Option (Args → Except String RVal))
    (question : String) (qres : List RetrievedItem) (pre post : List OracleItem)
    (n : String) (args0 : Args) (f : Args → Except String RVal)
    (hgw : gw n = some f)
    (hcap : getCount (List.foldl (enrichStep gw (extractQdrantContext qres).pmids)
        enrichInit pre).tool_call_counts n < max_calls_per_tool)
    (hpost : countFC post n = 0
      ∨ getCount (List.foldl (enrichStep gw (extractQdrantContext qres).pmids)
          enrichInit pre).tool_call_counts n + 1 = max_calls_per_tool) :
    (((run_graph_enrichment gw question qres
        (pre ++ OracleItem.function_call n args0 :: post)).results).map Prod.fst).Nodup
    ∧ dictGet? (run_graph_enrichment gw question qres
        (pre ++ OracleItem.function_call n args0 :: post)).results n
      = some (valueOf (f (injectExcludePmids (extractQdrantContext qres).pmids n args0)))
    ∧ (run_graph_enrichment gw question qres
        (pre ++ OracleItem.function_call n args0 :: post)).tools
      = (List.foldl (enrichStep gw (extractQdrantContext qres).pmids)
            enrichInit pre).tools_executed
        ++ execRecordOf n (injectExcludePmids (extractQdrantContext qres).pmids n args0)
            (f (injectExcludePmids (extractQdrantContext qres).pmids n args0))
          :: toolsDelta gw (extractQdrantContext qres).pmids
              (dictSet (List.foldl (enrichStep gw (extractQdrantContext qres).pmids)
                  enrichInit pre).tool_call_counts n
                (getCount (List.foldl (enrichStep gw (extractQdrantContext qres).pmids)
                    enrichInit pre).tool_call_counts n + 1)) post := by
  have hfold : List.foldl (enrichStep gw (extractQdrantContext qres).pmids) enrichInit
      (pre ++ OracleItem.function_call n args0 :: post)
      = List.foldl (enrichStep gw (extractQdrantContext qres).pmids)
          (enrichStep gw (extractQdrantContext qres).pmids
            (List.foldl (enrichStep gw (extractQdrantContext qres).pmids) enrichInit pre)
            (OracleItem.function_call n args0)) post := by
    rw [List.foldl_append, List.foldl_cons]
  have hstep := enrichStep_exec gw (extractQdrantContext qres).pmids
    (List.foldl (enrichStep gw (extractQdrantContext qres).pmids) enrichInit pre)
    n args0 f hcap hgw
  refine ⟨?_, ?_, ?_⟩
  · show (((List.foldl (enrichStep gw (extractQdrantContext qres).pmids) enrichInit
        (pre ++ OracleItem.function_call n args0 :: post)).results).map Prod.fst).Nodup
    apply enrich_fold_results_keys_nodup
    simp [enrichInit]
  · show dictGet? (List.foldl (enrichStep gw (extractQdrantContext qres).pmids) enrichInit
        (pre ++ OracleItem.function_call n args0 :: post)).results n = _
    rw [hfold, hstep]
    rw [enrich_results_stable gw (extractQdrantContext qres).pmids n post _ ?_]
    · exact dictGet?_set_self _ _ _
    · rcases hpost with h | h
      · exact Or.inl h
      · right
        simp only [getCount_set_self]
        omega
  · show (List.foldl (enrichStep gw (extractQdrantContext qres).pmids) enrichInit
        (pre ++ OracleItem.function_call n args0 :: post)).tools_executed = _
    rw [hfold, hstep, enrich_fold_tools]
    simp

/-- Witness for C10 at concrete inputs: two executed calls to the gene
tool — the first succeeds, the second raises — and the mapping retains
only the second (last) call's error marker. -/
theorem c10_mapping_last_wins_witness :
    (sampleGw "get_genes_in_same_papers" = some geneStub
     ∧ getCount (List.foldl
          (enrichStep sampleGw (extractQdrantContext ([] : List RetrievedItem)).pmids)
          enrichInit [OracleItem.function_call "get_genes_in_same_papers"
            [("target_gene", AVal.str "gag")]]).tool_call_counts
          "get_genes_in_same_papers" < max_calls_per_tool
     ∧ countFC ([] : List OracleItem) "get_genes_in_same_papers" = 0)
    ∧ dictGet? (run_graph_enrichment sampleGw "q" []
        ([OracleItem.function_call "get_genes_in_same_papers"
            [("target_gene", AVal.str "gag")]]
          ++ OracleItem.function_call "get_genes_in_same_papers" [("boom", AVal.null)]
            :: [])).results "get_genes_in_same_papers"
      = some (valueOf (geneStub (injectExcludePmids
          (extractQdrantContext ([] : List RetrievedItem)).pmids
          "get_genes_in_same_papers" [("boom", AVal.null)]))) :=
  ⟨⟨rfl, by decide, by decide⟩,
   (c10_mapping_last_wins sampleGw "q" []
     [OracleItem.function_call "get_genes_in_same_papers" [("target_gene", AVal.str "gag")]]
     [] "get_genes_in_same_papers" [("boom", AVal.null)] geneStub
     rfl (by decide) (Or.inl (by decide))).2.1⟩

end BioGraphRAG
